import Mathlib

/-!
Shallow embedding of the risk-managed trading core of
`src/coinex_trader.py` (class `CryptoFuturesTrader`) and proofs about it.

Timestamps are rational numbers of seconds; the calendar date of a
timestamp is its day index `⌊t / 86400⌋` (mirroring `datetime.date()`
comparisons in the source).  Python float amounts are modelled as `ℚ`.
Gateway (ccxt exchange) calls are modelled as `Except`-valued oracles
supplied as parameters; a `.error` value models a raised exception at
that call site.  String formatting of messages is modelled by inductive
message values carrying the same data the source interpolates.
-/

namespace Trader

/-- Seconds per calendar day. -/
def daySecs : ℚ := 86400

/-- Day index of a timestamp, the floor of `t / 86400` computed by
integer floor division; models `datetime.date()` of a wall-clock
instant, so `dayOf a < dayOf b` models `a.date() < b.date()`. -/
def dayOf (t : ℚ) : ℤ := t.num / ((t.den : ℤ) * 86400)

/-- Python truthiness of an optional float: `None` and `0.0` are falsy. -/
def truthyQ (o : Option ℚ) : Bool :=
  match o with
  | none => false
  | some v => decide (v ≠ 0)

/-- Substring containment on strings; models Python `needle in hay`. -/
def strContains (hay needle : String) : Bool :=
  (List.range (hay.data.length + 1)).any
    (fun i => decide (needle.data = (hay.data.drop i).take needle.data.length))

/-- Characterwise lowercasing; models Python `str.lower()`. -/
def strLower (s : String) : String := String.mk (s.data.map Char.toLower)

/-- Characterwise uppercasing; models Python `str.upper()`. -/
def strUpper (s : String) : String := String.mk (s.data.map Char.toUpper)

/-- One entry of `self.trades_history` (a trade record dict).  The `time`
field is `none` when the stored string does not parse as a timestamp
(`get_trading_status` skips such records). -/
structure TradeRecord where
  time : Option ℚ
  symbol : String
  side : String
  amount : ℚ
  price : Option ℚ
  stop_loss : Option ℚ
  take_profit : Option ℚ
  leverage : ℤ
  margin_mode : String
  post_only : Bool
  order_id : String
  order_type : String
  status : String
deriving DecidableEq, Repr

/-- One value of `self.pending_monitors` (a SL/TP monitor target). -/
structure MonitorTarget where
  side : String
  stop_loss : Option ℚ
  take_profit : Option ℚ
  entry_price : ℚ
  quantity : ℚ
deriving DecidableEq, Repr

/-- The mutable state of a `CryptoFuturesTrader` instance: risk
parameters, daily counters, trade history and the monitor-target dict
(modelled as an insertion-ordered association list, like a Python dict). -/
structure TraderState where
  exchange_id : String
  max_trades_per_day : ℤ
  cooldown_minutes : ℚ
  max_daily_loss : ℚ
  max_position_size : ℚ
  daily_trade_count : ℤ
  daily_pnl : ℚ
  last_trade_time : Option ℚ
  trades_history : List TradeRecord
  pending_monitors : List (String × MonitorTarget)
deriving DecidableEq, Repr

/-- The denial reason returned by `can_trade`, carrying the data the
source interpolates into its f-string reasons. -/
inductive Reason
  | tradingAllowed
  | maxTrades (limit : ℤ)
  | cooldownActive (waitMins : ℚ)
  | lossLimit (limit : ℚ)
deriving DecidableEq, Repr

/-- Result dict of `can_trade`. -/
structure CanTradeResult where
  allowed : Bool
  reason : Reason
deriving DecidableEq, Repr

/-- The day-rollover reset at the top of `can_trade`: if
`last_trade_time` is set and dated before today, zero the daily counters
and clear the history.  Note the source does not clear
`last_trade_time` itself. -/
def resetIfNewDay (s : TraderState) (now : ℚ) : TraderState :=
  match s.last_trade_time with
  | some t =>
      if dayOf t < dayOf now then
        { s with daily_trade_count := 0, daily_pnl := 0, trades_history := [] }
      else s
  | none => s

/-- Whether the cooldown window is still open:
`last_trade_time` set and `now < last_trade_time + cooldown`. -/
def cooldownHit (s : TraderState) (now : ℚ) : Bool :=
  match s.last_trade_time with
  | some t => decide (now < t + 60 * s.cooldown_minutes)
  | none => false

/-- Remaining cooldown wait in minutes:
`(cooldown_ends - now).total_seconds() / 60`. -/
def waitMins (s : TraderState) (now : ℚ) : ℚ :=
  match s.last_trade_time with
  | some t => (t + 60 * s.cooldown_minutes - now) / 60
  | none => 0

/-- The three checks of `can_trade` on the (already reset) state, in
source order, first failing check winning. -/
def can_trade_result (s1 : TraderState) (now : ℚ) : CanTradeResult :=
  if s1.max_trades_per_day ≤ s1.daily_trade_count then
    { allowed := false, reason := Reason.maxTrades s1.max_trades_per_day }
  else if cooldownHit s1 now then
    { allowed := false, reason := Reason.cooldownActive (waitMins s1 now) }
  else if s1.daily_pnl ≤ -s1.max_daily_loss then
    { allowed := false, reason := Reason.lossLimit s1.max_daily_loss }
  else
    { allowed := true, reason := Reason.tradingAllowed }

/-- Embeds `can_trade`: conditional day reset, then the three checks.  Returns
the (possibly reset) state and the result dict. -/
def can_trade (s : TraderState) (now : ℚ) : TraderState × CanTradeResult :=
  (resetIfNewDay s now, can_trade_result (resetIfNewDay s now) now)

/-- Embeds `update_pnl`: add the realized amount to `daily_pnl` (the loss-limit
breach only prints a warning; persistence is a file write). -/
def update_pnl (s : TraderState) (trade_pnl : ℚ) : TraderState :=
  { s with daily_pnl := s.daily_pnl + trade_pnl }

/-- The tolerant key match of `_monitor_positions`:
`key == symbol or key in symbol or symbol in key`. -/
def monitorMatch (key symbol : String) : Bool :=
  key == symbol || strContains symbol key || strContains key symbol

/-- First monitor target matching a position symbol, in dict insertion
order (the `for key, data in self.pending_monitors.items()` loop). -/
def findMonitor (monitors : List (String × MonitorTarget)) (symbol : String) :
    Option (String × MonitorTarget) :=
  monitors.find? (fun kv => monitorMatch kv.1 symbol)

/-- Price-based stop-loss direction test of the monitor loop:
long closes at `price <= stop_loss`, short at `price >= stop_loss`. -/
def slCondB (side : String) (price sl : ℚ) : Bool :=
  (side == ("long") && decide (price ≤ sl)) ||
    (side == ("short") && decide (sl ≤ price))

/-- Take-profit direction test of the monitor loop:
long closes at `price >= take_profit`, short at `price <= take_profit`. -/
def tpCondB (side : String) (price tp : ℚ) : Bool :=
  (side == ("long") && decide (tp ≤ price)) ||
    (side == ("short") && decide (price ≤ tp))

/-- Why the monitor loop decided to close a position. -/
inductive CloseReason
  | hardLoss
  | priceSL
  | takeProfitHit
deriving DecidableEq, Repr

/-- Close decision of one monitoring-cycle iteration of
`_monitor_positions` for one open position: `symbol`, `side` and `pnl`
come from the position dict, `ticker` is the (shared) result of
`fetch_ticker` for the symbol (`none` models a raised fetch error, which
the source catches and treats as no trigger).  All trigger rules sit
inside `if monitor:` — a position with no matching target is only
printed, never evaluated.  Inside the match: first the fixed PnL hard
stop (`pnl <= -5.0`), `elif` the truthy price stop-loss, then (when no
close was triggered) the truthy take-profit. -/
def monitorAction (monitors : List (String × MonitorTarget)) (symbol side : String)
    (pnl : ℚ) (ticker : Option ℚ) : Option CloseReason :=
  match findMonitor monitors symbol with
  | none => none
  | some km =>
      let m := km.2
      if pnl ≤ -5 then some CloseReason.hardLoss
      else
        let slTrig : Bool :=
          truthyQ m.stop_loss &&
            (match ticker with
             | none => false
             | some p => slCondB side p (m.stop_loss.getD 0))
        if slTrig then some CloseReason.priceSL
        else if truthyQ m.take_profit then
          match ticker with
          | none => none
          | some p =>
              if tpCondB side p (m.take_profit.getD 0) then
                some CloseReason.takeProfitHit
              else none
        else none

/-- Embeds `format_symbol_for_exchange`: for coinex, a symbol containing `/`
has the separator stripped and is matched case-insensitively against
the known market ids, falling back to the stripped form. -/
def format_symbol_for_exchange (exchange_id : String) (markets : List String)
    (symbol : String) : String :=
  if exchange_id == ("coinex") then
    if symbol.data.any (fun c => c == '/') then
      let fs := (symbol.data.filter (fun c => decide (c ≠ '/'))).asString
      match markets.find? (fun m => strUpper m == strUpper fs) with
      | some m => m
      | none => fs
    else symbol
  else symbol

/-- The slice of ccxt market metadata `place_trade` reads:
`market["limits"]["amount"]["min"]` (`none` when absent). -/
structure MarketInfo where
  min_amount : Option ℚ
deriving DecidableEq, Repr

/-- The slice of a ccxt order handle `place_trade` reads:
`order.get("id", "unknown")` and `order.get("symbol", formatted)`. -/
structure OrderHandle where
  id : Option String
  symbol : Option String
deriving DecidableEq, Repr

/-- The exchange gateway as seen by one `place_trade` call: each field
gives the outcome of the corresponding ccxt call (`.error msg` models a
raised exception carrying `str(e) = msg`).  `markets` is the market-id
table after `load_markets`; `markets_loaded` is whether
`self.exchange.markets` was already truthy. -/
structure Gateway where
  markets_loaded : Bool
  load_markets_res : Except String Unit
  markets : List String
  market_res : String → Except String MarketInfo
  set_leverage_res : Except String Unit
  set_margin_mode_res : Except String Unit
  fetch_ticker_res : String → Except String ℚ
  create_order_res : String → String → String → ℚ → Option ℚ → Except String OrderHandle
  fetch_order_res : String → String → Except String String

/-- A gateway operation invoked by `place_trade`, in invocation order. -/
inductive GwCall
  | loadMarkets
  | marketLookup (symbol : String)
  | setLeverage
  | setMarginMode
  | fetchTicker (symbol : String)
  | createOrder (symbol order_type side : String)
deriving DecidableEq, Repr

/-- The message of a `place_trade` result dict, carrying the data the
source interpolates into the corresponding f-string. -/
inductive TradeMsg
  | riskRejected (r : Reason)
  | sizeExceeded (amount maxSize : ℚ)
  | symbolNotFound (symbol err : String)
  | couldNotFetchPrice (symbol err : String)
  | insufficientBalance (err : String)
  | permissionIssue (err : String)
  | symbolError (symbol err : String)
  | otherError (exchange_id err : String)
  | placedOrder (side order_type symbol : String)
deriving DecidableEq, Repr

/-- A `{success, message}` result dict. -/
structure TradeResult where
  success : Bool
  message : TradeMsg
deriving DecidableEq, Repr

/-- The `except` handler at the bottom of `place_trade`: classify the
error text by case-insensitive substring, in source order
(balance, permission, symbol), else pass the raw message through. -/
def classify_error (exchange_id symbol err : String) : TradeMsg :=
  if strContains (strLower err) ("balance") then TradeMsg.insufficientBalance err
  else if strContains (strLower err) ("permission") then
    TradeMsg.permissionIssue err
  else if strContains (strLower err) ("symbol") then
    TradeMsg.symbolError symbol err
  else TradeMsg.otherError exchange_id err

/-- Python-dict insert: overwrite in place when the key exists,
else append (insertion order preserved). -/
def dictInsert (l : List (String × MonitorTarget)) (k : String) (v : MonitorTarget) :
    List (String × MonitorTarget) :=
  if l.any (fun kv => kv.1 == k) then
    l.map (fun kv => if kv.1 == k then (k, v) else kv)
  else l ++ [(k, v)]

/-- The success path of `place_trade` after `create_order` returned:
build the trade record, bump the counter for market orders, register a
monitor target when a truthy protective price was supplied, append to
history.  `pfc` is `price_for_calculation`, `quantity` the computed
contract quantity. -/
def recordOrder (s1 : TraderState) (now : ℚ) (fsym side : String) (amount : ℚ)
    (price stop_loss take_profit : Option ℚ) (leverage : ℤ) (margin_mode : String)
    (post_only : Bool) (order_type : String) (pfc quantity : ℚ)
    (order : OrderHandle) : TraderState :=
  let is_market := order_type == ("market")
  let rec1 : TradeRecord :=
    { time := some now, symbol := fsym, side := side, amount := amount,
      price := if is_market then some pfc else price,
      stop_loss := stop_loss, take_profit := take_profit, leverage := leverage,
      margin_mode := margin_mode, post_only := post_only,
      order_id := order.id.getD ("unknown"), order_type := order_type,
      status := if is_market then ("filled") else ("pending") }
  let s2 :=
    if is_market then
      { s1 with last_trade_time := some now,
                daily_trade_count := s1.daily_trade_count + 1 }
    else s1
  let s3 :=
    if truthyQ stop_loss || truthyQ take_profit then
      let actual := order.symbol.getD fsym
      let tgt : MonitorTarget :=
        { side := side, stop_loss := stop_loss, take_profit := take_profit,
          entry_price := if truthyQ price then price.getD 0 else pfc,
          quantity := quantity }
      { s2 with pending_monitors := dictInsert s2.pending_monitors actual tgt }
    else s2
  { s3 with trades_history := s3.trades_history ++ [rec1] }

/-- The tail of the `place_trade` `try` block once the calculation price
`pfc` is known: a zero price models Python's `ZeroDivisionError` at
`amount / price_for_calculation` (classified by the outer handler);
otherwise the quantity is computed, clamped up to the market minimum
when one is known, the order type chosen by `price is None`, and the
order submitted — a `create_order` error is classified by the outer
handler, success records the trade. -/
def submitOrder (gw : Gateway) (s1 : TraderState) (now : ℚ)
    (symbol fsym side : String) (amount : ℚ)
    (price stop_loss take_profit : Option ℚ) (leverage : ℤ)
    (margin_mode : String) (post_only : Bool) (mkt : MarketInfo) (pfc : ℚ)
    (trc : List GwCall) : TraderState × TradeResult × List GwCall :=
  if pfc = 0 then
    (s1, { success := false,
           message :=
             classify_error s1.exchange_id symbol ("float division by zero") },
     trc)
  else
    let quantity0 := amount / pfc
    let quantity :=
      match mkt.min_amount with
      | some mn => if quantity0 < mn then mn else quantity0
      | none => quantity0
    let order_type := if price = none then ("market") else ("limit")
    let tr4 := trc ++ [GwCall.createOrder fsym order_type side]
    match gw.create_order_res fsym order_type side quantity price with
    | Except.error e =>
        (s1, { success := false,
               message := classify_error s1.exchange_id symbol e }, tr4)
    | Except.ok order =>
        (recordOrder s1 now fsym side amount price stop_loss take_profit
           leverage margin_mode post_only order_type pfc quantity order,
         { success := true, message := TradeMsg.placedOrder side order_type fsym },
         tr4)

/-- The body of `place_trade` after both preconditions passed (the
`try` block): ensure markets are loaded, format the symbol, look up the
market (failure reported as symbol-not-supported), best-effort leverage
and margin mode (their outcomes are ignored), determine the calculation
price — the caller's price when truthy, else a fresh ticker fetch whose
failure is fatal with a could-not-fetch-price message — then
`submitOrder`.  Returns the new state, the result and the trace of
gateway calls made. -/
def place_trade_exec (gw : Gateway) (s1 : TraderState) (now : ℚ)
    (symbol side : String) (amount : ℚ) (price stop_loss take_profit : Option ℚ)
    (leverage : ℤ) (margin_mode : String) (post_only : Bool) :
    TraderState × TradeResult × List GwCall :=
  let tr0 : List GwCall := if gw.markets_loaded then [] else [GwCall.loadMarkets]
  let ensure : Except String Unit :=
    if gw.markets_loaded then Except.ok () else gw.load_markets_res
  match ensure with
  | Except.error e =>
      (s1, { success := false, message := classify_error s1.exchange_id symbol e },
       tr0)
  | Except.ok _ =>
    let fsym := format_symbol_for_exchange s1.exchange_id gw.markets symbol
    let tr1 := tr0 ++ [GwCall.marketLookup fsym]
    match gw.market_res fsym with
    | Except.error e =>
        (s1, { success := false, message := TradeMsg.symbolNotFound fsym e }, tr1)
    | Except.ok mkt =>
        let tr2 := tr1 ++ [GwCall.setLeverage, GwCall.setMarginMode]
        if truthyQ price then
          submitOrder gw s1 now symbol fsym side amount price stop_loss
            take_profit leverage margin_mode post_only mkt (price.getD 0) tr2
        else
          match gw.fetch_ticker_res fsym with
          | Except.error e =>
              (s1, { success := false,
                     message := TradeMsg.couldNotFetchPrice fsym e },
               tr2 ++ [GwCall.fetchTicker fsym])
          | Except.ok last =>
              submitOrder gw s1 now symbol fsym side amount price stop_loss
                take_profit leverage margin_mode post_only mkt last
                (tr2 ++ [GwCall.fetchTicker fsym])

/-- Embeds `place_trade`: the risk gate (`can_trade`, including its possible
day reset) and the position-size cap are checked first, each a terminal
rejection with no gateway call; then the execution body runs. -/
def place_trade (gw : Gateway) (s : TraderState) (now : ℚ)
    (symbol side : String) (amount : ℚ) (price stop_loss take_profit : Option ℚ)
    (leverage : ℤ) (margin_mode : String) (post_only : Bool) :
    TraderState × TradeResult × List GwCall :=
  let s1 := (can_trade s now).1
  let chk := (can_trade s now).2
  if chk.allowed = false then
    (s1, { success := false, message := TradeMsg.riskRejected chk.reason }, [])
  else if s1.max_position_size < amount then
    (s1, { success := false,
           message := TradeMsg.sizeExceeded amount s1.max_position_size }, [])
  else
    place_trade_exec gw s1 now symbol side amount price stop_loss take_profit
      leverage margin_mode post_only

/-- The pending-order selection of `check_limit_order_status`: with an
order id, records with that id and status pending; without, all pending
limit orders. -/
def pendingFilter (oid : Option String) (t : TradeRecord) : Bool :=
  match oid with
  | some i => t.order_id == i && t.status == ("pending")
  | none => t.status == ("pending") && t.order_type == ("limit")

/-- What one iteration of the `check_limit_order_status` loop does to
one history record: skipped unless it passes the pending filter and has
a usable order id; otherwise the gateway order is fetched (an error is
caught and skips the record) and status `closed`/`filled` resolves the
record to `filled`, `canceled`/`cancelled` to `canceled`.  Returns the
updated record and whether it was newly filled / newly canceled. -/
def checkStep (fetch : String → String → Except String String) (oid : Option String)
    (t : TradeRecord) : TradeRecord × Bool × Bool :=
  if pendingFilter oid t = false then (t, false, false)
  else if t.order_id == ("") || t.order_id == ("unknown") then (t, false, false)
  else
    match fetch t.order_id t.symbol with
    | Except.error _ => (t, false, false)
    | Except.ok st =>
        if st == ("closed") || st == ("filled") then
          ({ t with status := ("filled") }, true, false)
        else if st == ("canceled") || st == ("cancelled") then
          ({ t with status := ("canceled") }, false, true)
        else (t, false, false)

/-- Embeds `check_limit_order_status`: run `checkStep` over the whole history;
each newly filled order bumps `daily_trade_count` and sets
`last_trade_time` to the check time.  Returns the new state and the
number of updated (filled or canceled) orders. -/
def check_limit_order_status (fetch : String → String → Except String String)
    (s : TraderState) (now : ℚ) (oid : Option String) : TraderState × Nat :=
  let results := s.trades_history.map (checkStep fetch oid)
  let fills := (results.filter (fun r => r.2.1)).length
  let cancels := (results.filter (fun r => r.2.2)).length
  ({ s with trades_history := results.map (fun r => r.1),
            daily_trade_count := s.daily_trade_count + fills,
            last_trade_time := if 0 < fills then some now else s.last_trade_time },
   fills + cancels)

/-- A record counts toward the recomputed daily total when its status is
`filled` and its stored time parses and is dated today (unparseable
times are skipped by the `except: pass`). -/
def filledToday (history : List TradeRecord) (today : ℤ) : List TradeRecord :=
  history.filter
    (fun t => t.status == ("filled") &&
      (match t.time with
       | some ts => decide (dayOf ts = today)
       | none => false))

/-- The slice of the `get_trading_status` result dict the claims are
about (`daily_pnl` is reported unrounded here; the source rounds the
float to two decimals for display). -/
structure StatusReport where
  can_trade_allowed : Bool
  status_reason : Reason
  daily_trade_count : ℤ
  max_trades_per_day : ℤ
  trades_remaining : ℤ
  daily_pnl : ℚ
  last_trade_time : Option ℚ
deriving DecidableEq, Repr

/-- Embeds `get_trading_status`: run `can_trade` (with its possible day reset),
then the self-healing reconciliation — recount today's filled records
and overwrite `daily_trade_count` on mismatch — and build the report. -/
def get_trading_status (s : TraderState) (now : ℚ) : TraderState × StatusReport :=
  let s1 := (can_trade s now).1
  let ct := (can_trade s now).2
  let n : ℤ := (filledToday s1.trades_history (dayOf now)).length
  let s2 :=
    if n ≠ s1.daily_trade_count then { s1 with daily_trade_count := n } else s1
  (s2,
   { can_trade_allowed := ct.allowed, status_reason := ct.reason,
     daily_trade_count := s2.daily_trade_count,
     max_trades_per_day := s2.max_trades_per_day,
     trades_remaining := max 0 (s2.max_trades_per_day - s2.daily_trade_count),
     daily_pnl := s2.daily_pnl, last_trade_time := s2.last_trade_time })

/-- Reachability of a trader state from another by a finite sequence of
`place_trade` calls, with arbitrary gateways, call times and arguments
at every step. -/
inductive PlaceReach : TraderState → TraderState → Prop
  | refl (s : TraderState) : PlaceReach s s
  | step (s t : TraderState) (gw : Gateway) (now : ℚ) (symbol side : String)
      (amount : ℚ) (price stop_loss take_profit : Option ℚ) (leverage : ℤ)
      (margin_mode : String) (post_only : Bool) :
      PlaceReach s t →
      PlaceReach s
        (place_trade gw t now symbol side amount price stop_loss take_profit
          leverage margin_mode post_only).1

/-! Concrete fixtures for evaluating the definitions at explicit inputs:
a trader state with the constructor defaults of
`CryptoFuturesTrader.__init__`, some trade records and gateways. -/

/-- A fresh trader state with the risk defaults of `__init__`
(25 trades/day, 1 minute cooldown, 20 max daily loss, 5 max position). -/
def defaultState : TraderState :=
  { exchange_id := ("coinex"), max_trades_per_day := 25, cooldown_minutes := 1,
    max_daily_loss := 20, max_position_size := 5, daily_trade_count := 0,
    daily_pnl := 0, last_trade_time := none, trades_history := [],
    pending_monitors := [] }

/-- A state whose last trade happened on day 0 (timestamp 1000), with
nonzero daily counters. -/
def yesterdayState : TraderState :=
  { defaultState with last_trade_time := some 1000, daily_trade_count := 4,
                      daily_pnl := -3 }

/-- A pending limit-order trade record. -/
def pendingRec : TradeRecord :=
  { time := some 50, symbol := ("BTCUSDT"), side := ("buy"), amount := 4,
    price := some 50, stop_loss := none, take_profit := none, leverage := 5,
    margin_mode := ("isolated"), post_only := false, order_id := ("o1"),
    order_type := ("limit"), status := ("pending") }

/-- A filled trade record timestamped on day 1 (timestamp 86405). -/
def filledRecDay1 : TradeRecord :=
  { pendingRec with status := ("filled"), time := some 86405 }

/-- A state whose history holds one filled record dated day 1 while
`last_trade_time` is still dated day 0. -/
def staleCountState : TraderState :=
  { defaultState with last_trade_time := some 1000, daily_trade_count := 7,
                      trades_history := [filledRecDay1] }

/-- A state with a drifted counter (7) and one filled record dated
day 1, with no `last_trade_time` set. -/
def driftedCountState : TraderState :=
  { defaultState with daily_trade_count := 7, trades_history := [filledRecDay1] }

/-- A state that already used up its 25 daily trades. -/
def maxedState : TraderState :=
  { defaultState with daily_trade_count := 25 }

/-- A state whose last trade, at timestamp 1000, is within the 1-minute
cooldown of a check at timestamp 1030 of the same day. -/
def cooldownState : TraderState :=
  { defaultState with last_trade_time := some 1000 }

/-- A state sitting exactly at the -20 daily loss limit. -/
def lossState : TraderState :=
  { defaultState with daily_pnl := -20 }

/-- An order-status oracle always reporting `closed`. -/
def fetchClosed : String → String → Except String String :=
  fun _ _ => Except.ok ("closed")

/-- An order-status oracle always reporting `canceled`. -/
def fetchCanceled : String → String → Except String String :=
  fun _ _ => Except.ok ("canceled")

/-- A fresh state holding one pending limit order. -/
def pendingHistState : TraderState :=
  { defaultState with trades_history := [pendingRec] }

/-- A fresh state holding one already-filled record. -/
def filledHistState : TraderState :=
  { defaultState with trades_history := [filledRecDay1] }

/-- A monitor target for a short position with only a take-profit at
price 100. -/
def shortTpTarget : MonitorTarget :=
  { side := ("short"), stop_loss := none, take_profit := some 100,
    entry_price := 110, quantity := 1 }

/-- A gateway on which every call succeeds: one known market, ticker
price 50, orders accepted with id `o1`. -/
def gwOk : Gateway :=
  { markets_loaded := true, load_markets_res := Except.ok (),
    markets := [("BTCUSDT")],
    market_res := fun _ => Except.ok { min_amount := none },
    set_leverage_res := Except.ok (), set_margin_mode_res := Except.ok (),
    fetch_ticker_res := fun _ => Except.ok 50,
    create_order_res := fun sym _ _ _ _ =>
      Except.ok { id := some ("o1"), symbol := some sym },
    fetch_order_res := fun _ _ => Except.ok ("open") }

/-- Like `gwOk` except that `fetch_ticker` raises an error whose text
contains the substring `balance`. -/
def gwTickerBalanceFail : Gateway :=
  { gwOk with fetch_ticker_res := fun _ => Except.error ("no balance data") }

/-- Like `gwOk` except that `create_order` raises an error whose text
contains the substring `balance`. -/
def gwOrderBalanceFail : Gateway :=
  { gwOk with create_order_res := fun _ _ _ _ _ =>
      Except.error ("Insufficient BALANCE for order") }

/-! Theorems.  General lemmas about the embedded operations first, then
one theorem per claim (with witnesses / counterexamples). -/

/-- The state returned by `can_trade` is the conditionally reset state. -/
theorem can_trade_fst (s : TraderState) (now : ℚ) :
    (can_trade s now).1 = resetIfNewDay s now := rfl

/-- When `last_trade_time` is unset or not dated before today, the
day-rollover reset does nothing. -/
theorem resetIfNewDay_noReset (s : TraderState) (now : ℚ)
    (h : ∀ t, s.last_trade_time = some t → dayOf now ≤ dayOf t) :
    resetIfNewDay s now = s := by
  unfold resetIfNewDay
  split
  · rename_i t heq
    have h2 := h t heq
    rw [if_neg (by omega)]
  · rfl

/-- Claim C1, counterexample: a long position with unrealized PnL -6,
beyond the fixed -5 hard threshold, but with no registered MonitorTarget
matching it, is not closed: the monitoring cycle takes no action at all
on it, because in `_monitor_positions` every trigger rule (including
the PnL hard stop) sits inside `if monitor:`. -/
theorem c1_counterexample :
    monitorAction [] ("BTCUSDT") ("long") (-6) none = none := rfl

/-- Claim C1 (amended): the fixed hard stop is evaluated only for open
positions with a matching MonitorTarget.  For a position whose symbol
matches a registered target, unrealized PnL at or below the fixed -5
threshold triggers a close with the hard-loss reason, whatever the
target's stop_loss/take_profit prices and the ticker are (and the rule
reads no configured limit); for a position with no matching target no
rule is evaluated and no close is triggered. -/
theorem c1_hard_stop (monitors : List (String × MonitorTarget))
    (symbol side : String) (pnl : ℚ) (ticker : Option ℚ) :
    (∀ km, findMonitor monitors symbol = some km → pnl ≤ -5 →
        monitorAction monitors symbol side pnl ticker =
          some CloseReason.hardLoss) ∧
    (findMonitor monitors symbol = none →
        monitorAction monitors symbol side pnl ticker = none) := by
  constructor
  · intro km hm hp
    simp [monitorAction, hm, hp]
  · intro hm
    simp [monitorAction, hm]

/-- Witness for `c1_hard_stop` at a concrete matched position. -/
theorem c1_hard_stop_witness :
    monitorAction [(("BTCUSDT"), shortTpTarget)] ("BTCUSDT") ("short") (-6)
        (some 105) = some CloseReason.hardLoss :=
  (c1_hard_stop _ _ _ _ _).1 (("BTCUSDT"), shortTpTarget) (by decide)
    (by norm_num)

/-- Claim C2, counterexample: from a state last traded on day 0, the
first `can_trade` on day 1 resets the daily counters, but a PnL update
made after that reset is wiped by the next `can_trade` of the same day
— the reset is not performed exactly once. -/
theorem c2_counterexample :
    (update_pnl (can_trade yesterdayState 86400).1 5).daily_pnl = 5 ∧
    (can_trade (update_pnl (can_trade yesterdayState 86400).1 5) 86500).1.daily_pnl
      = 0 := by
  constructor
  · show (0 : ℚ) + 5 = 5
    norm_num
  · rfl

/-- Claim C2 (amended): the day-rollover reset fires on every `can_trade`
call whose `last_trade_time` is dated before the call's date, because
the reset clears the counters and history but leaves `last_trade_time`
unchanged; consequently a later call that day resets again, wiping any
mutation (such as a PnL update) made in between, until a trade placement
moves `last_trade_time` to the current day. -/
theorem c2_reset_each_call (s : TraderState) (t now now2 amt : ℚ)
    (ht : s.last_trade_time = some t)
    (h1 : dayOf t < dayOf now) (h2 : dayOf t < dayOf now2) :
    ((can_trade s now).1.daily_trade_count = 0 ∧
     (can_trade s now).1.daily_pnl = 0 ∧
     (can_trade s now).1.trades_history = [] ∧
     (can_trade s now).1.last_trade_time = some t) ∧
    (can_trade (update_pnl (can_trade s now).1 amt) now2).1.daily_pnl = 0 := by
  have hr : resetIfNewDay s now =
      { s with daily_trade_count := 0, daily_pnl := 0, trades_history := [] } := by
    simp [resetIfNewDay, ht, h1]
  constructor
  · rw [can_trade_fst, hr]
    exact ⟨rfl, rfl, rfl, ht⟩
  · rw [can_trade_fst, can_trade_fst, hr]
    simp [update_pnl, resetIfNewDay, ht, h2]

/-- Witness for `c2_reset_each_call` at the concrete day-0/day-1 state. -/
theorem c2_reset_each_call_witness :
    (((can_trade yesterdayState 86400).1.daily_trade_count = 0 ∧
      (can_trade yesterdayState 86400).1.daily_pnl = 0 ∧
      (can_trade yesterdayState 86400).1.trades_history = [] ∧
      (can_trade yesterdayState 86400).1.last_trade_time = some 1000) ∧
     (can_trade (update_pnl (can_trade yesterdayState 86400).1 5) 86500).1.daily_pnl
       = 0) :=
  c2_reset_each_call yesterdayState 1000 86400 86500 5 rfl (by decide) (by decide)

/-- The stop-loss direction test as a proposition. -/
theorem slCondB_eq_true (side : String) (p sl : ℚ) :
    slCondB side p sl = true ↔
      ((side = ("long") ∧ p ≤ sl) ∨ (side = ("short") ∧ sl ≤ p)) := by
  simp [slCondB, Bool.or_eq_true, Bool.and_eq_true, beq_iff_eq,
    decide_eq_true_eq]

/-- The take-profit direction test as a proposition. -/
theorem tpCondB_eq_true (side : String) (p tp : ℚ) :
    tpCondB side p tp = true ↔
      ((side = ("long") ∧ tp ≤ p) ∨ (side = ("short") ∧ p ≤ tp)) := by
  simp [tpCondB, Bool.or_eq_true, Bool.and_eq_true, beq_iff_eq,
    decide_eq_true_eq]

/-- Claim C9: direction rules of the price triggers, for a monitored
position whose hard stop is not active.  With a matched target carrying
a (truthy) stop_loss price, the stop-loss rule closes exactly when
price <= stop_loss for a long and price >= stop_loss for a short; with
a (truthy) take_profit price, the take-profit rule closes exactly when
price >= take_profit for a long and price <= take_profit for a short,
provided the stop-loss rule did not already fire. -/
theorem c9_price_rules (monitors : List (String × MonitorTarget))
    (symbol side : String) (pnl p : ℚ) (km : String × MonitorTarget)
    (hm : findMonitor monitors symbol = some km) (hp : -5 < pnl) :
    (∀ sl, km.2.stop_loss = some sl → sl ≠ 0 →
      (monitorAction monitors symbol side pnl (some p) =
          some CloseReason.priceSL ↔
        ((side = ("long") ∧ p ≤ sl) ∨ (side = ("short") ∧ sl ≤ p)))) ∧
    (∀ tp, km.2.take_profit = some tp → tp ≠ 0 →
      (monitorAction monitors symbol side pnl (some p) =
          some CloseReason.takeProfitHit ↔
        ((truthyQ km.2.stop_loss && slCondB side p (km.2.stop_loss.getD 0))
            = false ∧
         ((side = ("long") ∧ tp ≤ p) ∨ (side = ("short") ∧ p ≤ tp))))) := by
  have hne : ¬ pnl ≤ -5 := not_le.mpr hp
  constructor
  · intro sl hsl hsl0
    rw [← slCondB_eq_true]
    simp only [monitorAction, hm]
    rw [if_neg hne]
    simp only [hsl, Option.getD_some]
    have htr : truthyQ (some sl) = true := by simp [truthyQ, hsl0]
    rw [htr]
    simp only [Bool.true_and]
    cases hcb : slCondB side p sl with
    | true => simp
    | false =>
        simp only [Bool.false_eq_true, if_false, iff_false]
        intro h
        by_cases h2 : truthyQ km.2.take_profit = true
        · rw [if_pos h2] at h
          by_cases h3 : tpCondB side p (km.2.take_profit.getD 0) = true
          · rw [if_pos h3] at h
            exact absurd h (by decide)
          · rw [if_neg h3] at h
            exact Option.noConfusion h
        · rw [if_neg h2] at h
          exact Option.noConfusion h
  · intro tp htp htp0
    rw [← tpCondB_eq_true]
    simp only [monitorAction, hm]
    rw [if_neg hne]
    cases hcb : (truthyQ km.2.stop_loss &&
        slCondB side p (km.2.stop_loss.getD 0)) with
    | true =>
        rw [if_pos rfl]
        simp
    | false =>
        simp only [Bool.false_eq_true, if_false]
        have htr : truthyQ (some tp) = true := by simp [truthyQ, htp0]
        simp only [htp, htr, if_true]
        cases hct : tpCondB side p tp with
        | true => simp [hct]
        | false => simp [hct]

/-- Witness for `c9_price_rules`: a short position with take_profit 100
triggers the take-profit close at price 95 and not at price 105. -/
theorem c9_price_rules_witness :
    (monitorAction [(("BTCUSDT"), shortTpTarget)] ("BTCUSDT") ("short") 1
        (some 95) = some CloseReason.takeProfitHit) ∧
    ¬ (monitorAction [(("BTCUSDT"), shortTpTarget)] ("BTCUSDT") ("short") 1
        (some 105) = some CloseReason.takeProfitHit) := by
  constructor
  · exact ((c9_price_rules [(("BTCUSDT"), shortTpTarget)] ("BTCUSDT") ("short")
        1 95 (("BTCUSDT"), shortTpTarget) rfl (by norm_num)).2 100 rfl
        (by norm_num)).mpr ⟨rfl, Or.inr ⟨rfl, by norm_num⟩⟩
  · intro h
    have h2 := ((c9_price_rules [(("BTCUSDT"), shortTpTarget)] ("BTCUSDT")
        ("short") 1 105 (("BTCUSDT"), shortTpTarget) rfl (by norm_num)).2 100
        rfl (by norm_num)).mp h
    rcases h2.2 with ⟨hs, _⟩ | ⟨_, hle⟩
    · exact absurd hs (by decide)
    · norm_num at hle

/-- Claim C4: `can_trade` evaluates its three checks in a fixed order on
the conditionally reset state, the first failing check winning, and
returns exactly one reason: the daily-trade limit, else the cooldown
with the remaining wait in minutes, else the daily-loss limit, else
allowed. -/
theorem c4_first_failing_check (s s1 : TraderState) (now : ℚ)
    (hs1 : s1 = resetIfNewDay s now) :
    (s1.max_trades_per_day ≤ s1.daily_trade_count →
      (can_trade s now).2 =
        { allowed := false, reason := Reason.maxTrades s1.max_trades_per_day }) ∧
    (s1.daily_trade_count < s1.max_trades_per_day →
      ∀ t, s1.last_trade_time = some t → now < t + 60 * s1.cooldown_minutes →
        (can_trade s now).2 =
          { allowed := false,
            reason :=
              Reason.cooldownActive ((t + 60 * s1.cooldown_minutes - now) / 60) }) ∧
    (s1.daily_trade_count < s1.max_trades_per_day →
      (∀ t, s1.last_trade_time = some t → t + 60 * s1.cooldown_minutes ≤ now) →
      s1.daily_pnl ≤ -s1.max_daily_loss →
      (can_trade s now).2 =
        { allowed := false, reason := Reason.lossLimit s1.max_daily_loss }) ∧
    (s1.daily_trade_count < s1.max_trades_per_day →
      (∀ t, s1.last_trade_time = some t → t + 60 * s1.cooldown_minutes ≤ now) →
      -s1.max_daily_loss < s1.daily_pnl →
      (can_trade s now).2 = { allowed := true, reason := Reason.tradingAllowed }) := by
  subst hs1
  have hres : (can_trade s now).2 = can_trade_result (resetIfNewDay s now) now := rfl
  refine ⟨?_, ?_, ?_, ?_⟩
  · intro h
    rw [hres]
    unfold can_trade_result
    rw [if_pos h]
  · intro hc t ht hcd
    rw [hres]
    unfold can_trade_result
    have hch : cooldownHit (resetIfNewDay s now) now = true := by
      unfold cooldownHit
      rw [ht]
      exact decide_eq_true hcd
    rw [if_neg (not_le.mpr hc), hch, if_pos rfl]
    unfold waitMins
    rw [ht]
  · intro hc hcd hl
    rw [hres]
    unfold can_trade_result
    have hch : cooldownHit (resetIfNewDay s now) now = false := by
      unfold cooldownHit
      cases hlt : (resetIfNewDay s now).last_trade_time with
      | none => rfl
      | some t => exact decide_eq_false (not_lt.mpr (hcd t hlt))
    rw [if_neg (not_le.mpr hc), hch]
    simp only [Bool.false_eq_true, if_false]
    rw [if_pos hl]
  · intro hc hcd hl
    rw [hres]
    unfold can_trade_result
    have hch : cooldownHit (resetIfNewDay s now) now = false := by
      unfold cooldownHit
      cases hlt : (resetIfNewDay s now).last_trade_time with
      | none => rfl
      | some t => exact decide_eq_false (not_lt.mpr (hcd t hlt))
    rw [if_neg (not_le.mpr hc), hch]
    simp only [Bool.false_eq_true, if_false]
    rw [if_neg (not_le.mpr hl)]

/-- Witness for `c4_first_failing_check`, exercising all four outcomes
at concrete states. -/
theorem c4_first_failing_check_witness :
    ((can_trade maxedState 100).2 =
      { allowed := false, reason := Reason.maxTrades 25 }) ∧
    ((can_trade cooldownState 1030).2 =
      { allowed := false,
        reason := Reason.cooldownActive ((1000 + 60 * 1 - 1030) / 60) }) ∧
    ((can_trade lossState 100).2 =
      { allowed := false, reason := Reason.lossLimit 20 }) ∧
    ((can_trade defaultState 100).2 =
      { allowed := true, reason := Reason.tradingAllowed }) :=
  ⟨(c4_first_failing_check maxedState maxedState 100 rfl).1 (by decide),
   (c4_first_failing_check cooldownState cooldownState 1030 rfl).2.1 (by decide)
     1000 rfl (by norm_num [cooldownState, defaultState]),
   (c4_first_failing_check lossState lossState 100 rfl).2.2.1 (by decide)
     (fun t ht => nomatch ht) (by norm_num [lossState, defaultState]),
   (c4_first_failing_check defaultState defaultState 100 rfl).2.2.2 (by decide)
     (fun t ht => nomatch ht) (by norm_num [defaultState])⟩

/-- Claim C6: the two preconditions of `place_trade` are checked in
order — risk gate first, then the position-size cap — and each failure
is a terminal rejection carrying the corresponding reason, with no
gateway operation invoked (empty call trace).  The first conjunct has no
hypothesis about the amount, so a risk-gate denial wins even when the
size cap is also exceeded. -/
theorem c6_preconditions (gw : Gateway) (s : TraderState) (now : ℚ)
    (symbol side : String) (amount : ℚ) (price stop_loss take_profit : Option ℚ)
    (leverage : ℤ) (margin_mode : String) (post_only : Bool) :
    ((can_trade s now).2.allowed = false →
      place_trade gw s now symbol side amount price stop_loss take_profit
          leverage margin_mode post_only =
        ((can_trade s now).1,
         { success := false,
           message := TradeMsg.riskRejected (can_trade s now).2.reason }, [])) ∧
    ((can_trade s now).2.allowed = true →
      (can_trade s now).1.max_position_size < amount →
      place_trade gw s now symbol side amount price stop_loss take_profit
          leverage margin_mode post_only =
        ((can_trade s now).1,
         { success := false,
           message :=
             TradeMsg.sizeExceeded amount (can_trade s now).1.max_position_size },
         [])) := by
  constructor
  · intro h
    simp only [place_trade, h, if_true]
  · intro h hsz
    simp only [place_trade, h, Bool.true_eq_false, if_false, hsz, if_true]

/-- Witness for `c6_preconditions`: a maxed-out state rejects with the
risk reason (even though the amount also exceeds the cap), and a fresh
state rejects an oversized amount naming the cap; no gateway call in
either case. -/
theorem c6_preconditions_witness :
    (place_trade gwOk maxedState 100 ("BTC/USDT") ("buy") 6 none none none
        5 ("isolated") false =
      (maxedState,
       { success := false,
         message := TradeMsg.riskRejected (Reason.maxTrades 25) }, [])) ∧
    (place_trade gwOk defaultState 100 ("BTC/USDT") ("buy") 6 none none none
        5 ("isolated") false =
      (defaultState,
       { success := false, message := TradeMsg.sizeExceeded 6 5 }, [])) :=
  ⟨(c6_preconditions gwOk maxedState 100 ("BTC/USDT") ("buy") 6 none none none
      5 ("isolated") false).1 rfl,
   (c6_preconditions gwOk defaultState 100 ("BTC/USDT") ("buy") 6 none none
      none 5 ("isolated") false).2 rfl (by decide)⟩

/-- Claim C8, counterexample: a state whose history holds N = 1 filled
record dated today but whose `last_trade_time` is dated yesterday; the
status call's initial `can_trade` wipes the history before the
reconciliation runs, so the reported `daily_trade_count` is 0, not N. -/
theorem c8_counterexample :
    (filledToday staleCountState.trades_history (dayOf 86500)).length = 1 ∧
    (get_trading_status staleCountState 86500).2.daily_trade_count = 0 :=
  ⟨rfl, rfl⟩

/-- Claim C8 (amended): provided `last_trade_time` is unset or not dated
before today (so the day-rollover reset inside the status call does not
clear the history first), the status report overwrites and reports a
`daily_trade_count` equal to the number of filled records dated today
in the history, whatever the tracked counter held. -/
theorem c8_reconciliation (s : TraderState) (now : ℚ)
    (h : ∀ t, s.last_trade_time = some t → dayOf now ≤ dayOf t) :
    (get_trading_status s now).2.daily_trade_count =
      ((filledToday s.trades_history (dayOf now)).length : ℤ) ∧
    (get_trading_status s now).1.daily_trade_count =
      ((filledToday s.trades_history (dayOf now)).length : ℤ) := by
  have h1 : (can_trade s now).1 = s := by
    rw [can_trade_fst, resetIfNewDay_noReset s now h]
  constructor
  · simp only [get_trading_status, h1]
    split
    · rfl
    · rename_i hn
      push_neg at hn
      exact hn.symm
  · simp only [get_trading_status, h1]
    split
    · rfl
    · rename_i hn
      push_neg at hn
      exact hn.symm

/-- Witness for `c8_reconciliation`: a drifted counter of 7 against one
filled record dated today is overwritten with 1. -/
theorem c8_reconciliation_witness :
    (get_trading_status driftedCountState 86500).2.daily_trade_count =
      ((filledToday driftedCountState.trades_history (dayOf 86500)).length : ℤ) ∧
    (get_trading_status driftedCountState 86500).1.daily_trade_count =
      ((filledToday driftedCountState.trades_history (dayOf 86500)).length : ℤ) :=
  c8_reconciliation driftedCountState 86500 (fun _ ht => nomatch ht)

/-- The reset preserves every risk-limit field. -/
theorem resetIfNewDay_limits (s : TraderState) (now : ℚ) :
    (resetIfNewDay s now).max_trades_per_day = s.max_trades_per_day ∧
    (resetIfNewDay s now).max_position_size = s.max_position_size ∧
    (resetIfNewDay s now).exchange_id = s.exchange_id := by
  unfold resetIfNewDay
  split
  · split <;> exact ⟨rfl, rfl, rfl⟩
  · exact ⟨rfl, rfl, rfl⟩

/-- The reset either zeroes the trade counter or leaves it unchanged. -/
theorem resetIfNewDay_count (s : TraderState) (now : ℚ) :
    (resetIfNewDay s now).daily_trade_count = 0 ∨
    (resetIfNewDay s now).daily_trade_count = s.daily_trade_count := by
  unfold resetIfNewDay
  split
  · split
    · exact Or.inl rfl
    · exact Or.inr rfl
  · exact Or.inr rfl

/-- An allowed `can_trade` means the (reset) counter is strictly below
the limit. -/
theorem can_trade_allowed_lt (s : TraderState) (now : ℚ)
    (h : (can_trade s now).2.allowed = true) :
    (can_trade s now).1.daily_trade_count <
      (can_trade s now).1.max_trades_per_day := by
  by_contra hlt
  push_neg at hlt
  rw [can_trade_fst] at hlt
  have h2 : (can_trade s now).2.allowed = false := by
    show (can_trade_result (resetIfNewDay s now) now).allowed = false
    unfold can_trade_result
    rw [if_pos hlt]
  rw [h] at h2
  exact Bool.true_eq_false ▸ h2

/-- Lemma: `recordOrder` preserves the risk limits and bumps the trade counter
by one exactly for a market order, leaving it unchanged otherwise. -/
theorem recordOrder_count (s1 : TraderState) (now : ℚ) (fsym side : String)
    (amount : ℚ) (price stop_loss take_profit : Option ℚ) (leverage : ℤ)
    (margin_mode : String) (post_only : Bool) (order_type : String) (pfc q : ℚ)
    (order : OrderHandle) :
    (recordOrder s1 now fsym side amount price stop_loss take_profit leverage
        margin_mode post_only order_type pfc q order).max_trades_per_day =
      s1.max_trades_per_day ∧
    ((recordOrder s1 now fsym side amount price stop_loss take_profit leverage
        margin_mode post_only order_type pfc q order).daily_trade_count =
        s1.daily_trade_count ∨
     (recordOrder s1 now fsym side amount price stop_loss take_profit leverage
        margin_mode post_only order_type pfc q order).daily_trade_count =
        s1.daily_trade_count + 1) := by
  unfold recordOrder
  dsimp only
  constructor
  · split <;> split <;> rfl
  · split
    · split
      · exact Or.inr rfl
      · exact Or.inl rfl
    · split
      · exact Or.inr rfl
      · exact Or.inl rfl

/-- Case analysis of `submitOrder`: either it fails with the input state
unchanged, or it succeeds with the state produced by `recordOrder` at
the order type chosen by `price is None`. -/
theorem submitOrder_cases (gw : Gateway) (s1 : TraderState) (now : ℚ)
    (symbol fsym side : String) (amount : ℚ)
    (price stop_loss take_profit : Option ℚ) (leverage : ℤ)
    (margin_mode : String) (post_only : Bool) (mkt : MarketInfo) (pfc : ℚ)
    (trc : List GwCall) :
    ((submitOrder gw s1 now symbol fsym side amount price stop_loss take_profit
        leverage margin_mode post_only mkt pfc trc).2.1.success = false ∧
     (submitOrder gw s1 now symbol fsym side amount price stop_loss take_profit
        leverage margin_mode post_only mkt pfc trc).1 = s1) ∨
    ((submitOrder gw s1 now symbol fsym side amount price stop_loss take_profit
        leverage margin_mode post_only mkt pfc trc).2.1.success = true ∧
     ∃ q order,
       (submitOrder gw s1 now symbol fsym side amount price stop_loss
          take_profit leverage margin_mode post_only mkt pfc trc).1 =
         recordOrder s1 now fsym side amount price stop_loss take_profit
           leverage margin_mode post_only
           (if price = none then ("market") else ("limit")) pfc q order) := by
  unfold submitOrder
  split
  · exact Or.inl ⟨rfl, rfl⟩
  · dsimp only
    split
    · exact Or.inl ⟨rfl, rfl⟩
    · exact Or.inr ⟨rfl, _, _, rfl⟩

/-- Case analysis of the `place_trade` execution body: either it fails
with the input state unchanged, or it succeeds with a `recordOrder`
state. -/
theorem place_trade_exec_cases (gw : Gateway) (s1 : TraderState) (now : ℚ)
    (symbol side : String) (amount : ℚ)
    (price stop_loss take_profit : Option ℚ) (leverage : ℤ)
    (margin_mode : String) (post_only : Bool) :
    ((place_trade_exec gw s1 now symbol side amount price stop_loss take_profit
        leverage margin_mode post_only).2.1.success = false ∧
     (place_trade_exec gw s1 now symbol side amount price stop_loss take_profit
        leverage margin_mode post_only).1 = s1) ∨
    ((place_trade_exec gw s1 now symbol side amount price stop_loss take_profit
        leverage margin_mode post_only).2.1.success = true ∧
     ∃ fsym pfc q order,
       (place_trade_exec gw s1 now symbol side amount price stop_loss
          take_profit leverage margin_mode post_only).1 =
         recordOrder s1 now fsym side amount price stop_loss take_profit
           leverage margin_mode post_only
           (if price = none then ("market") else ("limit")) pfc q order) := by
  unfold place_trade_exec
  dsimp only
  split
  · exact Or.inl ⟨rfl, rfl⟩
  · split
    · exact Or.inl ⟨rfl, rfl⟩
    · split
      · rcases submitOrder_cases gw s1 now symbol
          (format_symbol_for_exchange s1.exchange_id gw.markets symbol) side
          amount price stop_loss take_profit leverage margin_mode post_only _
          (price.getD 0) _ with ⟨h1, h2⟩ | ⟨h1, q, order, h2⟩
        · exact Or.inl ⟨h1, h2⟩
        · exact Or.inr ⟨h1, _, _, q, order, h2⟩
      · split
        · exact Or.inl ⟨rfl, rfl⟩
        · rename_i last _
          rcases submitOrder_cases gw s1 now symbol
            (format_symbol_for_exchange s1.exchange_id gw.markets symbol) side
            amount price stop_loss take_profit leverage margin_mode post_only _
            last _ with ⟨h1, h2⟩ | ⟨h1, q, order, h2⟩
          · exact Or.inl ⟨h1, h2⟩
          · exact Or.inr ⟨h1, _, _, q, order, h2⟩

/-- When both preconditions pass, `place_trade` is its execution body on
the post-risk-check state. -/
theorem place_trade_of_pass (gw : Gateway) (s : TraderState) (now : ℚ)
    (symbol side : String) (amount : ℚ)
    (price stop_loss take_profit : Option ℚ) (leverage : ℤ)
    (margin_mode : String) (post_only : Bool)
    (hall : (can_trade s now).2.allowed = true)
    (hsz : ¬ (can_trade s now).1.max_position_size < amount) :
    place_trade gw s now symbol side amount price stop_loss take_profit
        leverage margin_mode post_only =
      place_trade_exec gw (can_trade s now).1 now symbol side amount price
        stop_loss take_profit leverage margin_mode post_only := by
  unfold place_trade
  dsimp only
  rw [hall]
  rw [if_neg (by simp)]
  rw [if_neg hsz]

/-- One `place_trade` call preserves nonnegativity of the daily-trade
limit and the bound of the counter by the limit. -/
theorem place_trade_step_inv (gw : Gateway) (u : TraderState) (now : ℚ)
    (symbol side : String) (amount : ℚ)
    (price stop_loss take_profit : Option ℚ) (leverage : ℤ)
    (margin_mode : String) (post_only : Bool)
    (hmax : 0 ≤ u.max_trades_per_day)
    (hc : u.daily_trade_count ≤ u.max_trades_per_day) :
    0 ≤ (place_trade gw u now symbol side amount price stop_loss take_profit
          leverage margin_mode post_only).1.max_trades_per_day ∧
    (place_trade gw u now symbol side amount price stop_loss take_profit
        leverage margin_mode post_only).1.daily_trade_count ≤
      (place_trade gw u now symbol side amount price stop_loss take_profit
        leverage margin_mode post_only).1.max_trades_per_day := by
  have hs1max : (can_trade u now).1.max_trades_per_day = u.max_trades_per_day := by
    rw [can_trade_fst]
    exact (resetIfNewDay_limits u now).1
  have hs1c : (can_trade u now).1.daily_trade_count ≤
      (can_trade u now).1.max_trades_per_day := by
    rw [can_trade_fst, (resetIfNewDay_limits u now).1]
    rcases resetIfNewDay_count u now with h | h
    · rw [h]; exact hmax
    · rw [h]; exact hc
  unfold place_trade
  dsimp only
  split
  · constructor
    · rw [hs1max]; exact hmax
    · exact hs1c
  · split
    · constructor
      · rw [hs1max]; exact hmax
      · exact hs1c
    · rename_i hall _
      have hallowed : (can_trade u now).2.allowed = true := by
        cases hb : (can_trade u now).2.allowed
        · exact absurd hb hall
        · rfl
      have hlt := can_trade_allowed_lt u now hallowed
      rcases place_trade_exec_cases gw ((can_trade u now).1) now symbol side
          amount price stop_loss take_profit leverage margin_mode post_only
        with ⟨_, h2⟩ | ⟨_, fsym, pfc, q, order, h2⟩
      · rw [h2]
        constructor
        · rw [hs1max]; exact hmax
        · exact hs1c
      · rw [h2]
        have hrc := recordOrder_count ((can_trade u now).1) now fsym side amount
          price stop_loss take_profit leverage margin_mode post_only
          (if price = none then ("market") else ("limit")) pfc q order
        constructor
        · rw [hrc.1, hs1max]; exact hmax
        · rcases hrc.2 with h3 | h3 <;> rw [hrc.1, h3] <;> omega

/-- Claim C5: over any sequence of `place_trade` calls starting from a
state whose counter is within the (nonnegative, per the RiskLimits data
model) daily limit, `daily_trade_count` never exceeds
`max_trades_per_day`: the counter is only incremented, by one, after
`can_trade` allowed the call, which requires it to be strictly below
the limit. -/
theorem c5_count_never_exceeds (s t : TraderState)
    (hmax : 0 ≤ s.max_trades_per_day)
    (hcount : s.daily_trade_count ≤ s.max_trades_per_day)
    (h : PlaceReach s t) :
    t.daily_trade_count ≤ t.max_trades_per_day := by
  have main : 0 ≤ t.max_trades_per_day ∧
      t.daily_trade_count ≤ t.max_trades_per_day := by
    induction h with
    | refl => exact ⟨hmax, hcount⟩
    | step t2 gw now symbol side amount price stop_loss take_profit leverage
        margin_mode post_only hr ih =>
        exact place_trade_step_inv gw t2 now symbol side amount price stop_loss
          take_profit leverage margin_mode post_only ih.1 ih.2
  exact main.2

/-- Witness for `c5_count_never_exceeds`: after a market order from the
fresh default state, the counter (now 1) is within the limit of 25. -/
theorem c5_count_never_exceeds_witness :
    (place_trade gwOk defaultState 100 ("BTC/USDT") ("buy") 4 none none none
        5 ("isolated") false).1.daily_trade_count ≤
      (place_trade gwOk defaultState 100 ("BTC/USDT") ("buy") 4 none none none
        5 ("isolated") false).1.max_trades_per_day :=
  c5_count_never_exceeds defaultState _ (by decide) (by decide)
    (PlaceReach.step defaultState defaultState gwOk 100 ("BTC/USDT") ("buy") 4
      none none none 5 ("isolated") false (PlaceReach.refl defaultState))

/-- Claim C10: failure atomicity of `place_trade`.  Provided no
day-rollover reset applies at the call (`last_trade_time` unset or not
dated before now), every call returning `success = false` — a
precondition rejection, a markets/symbol lookup failure, a price-fetch
failure, or an order-submission failure — leaves the whole trader state
(counters, PnL, last trade time, history, monitor targets) unchanged. -/
theorem c10_failure_atomicity (gw : Gateway) (s : TraderState) (now : ℚ)
    (symbol side : String) (amount : ℚ)
    (price stop_loss take_profit : Option ℚ) (leverage : ℤ)
    (margin_mode : String) (post_only : Bool)
    (hday : ∀ t, s.last_trade_time = some t → dayOf now ≤ dayOf t)
    (hfail : (place_trade gw s now symbol side amount price stop_loss
        take_profit leverage margin_mode post_only).2.1.success = false) :
    (place_trade gw s now symbol side amount price stop_loss take_profit
        leverage margin_mode post_only).1 = s := by
  have hs1 : (can_trade s now).1 = s := by
    rw [can_trade_fst, resetIfNewDay_noReset s now hday]
  revert hfail
  unfold place_trade
  dsimp only
  split
  · intro _
    exact hs1
  · split
    · intro _
      exact hs1
    · intro hfail
      rcases place_trade_exec_cases gw ((can_trade s now).1) now symbol side
          amount price stop_loss take_profit leverage margin_mode post_only
        with ⟨_, h2⟩ | ⟨h1, _, _, _, _, _⟩
      · rw [h2]
        exact hs1
      · rw [h1] at hfail
        exact absurd hfail (by simp)

/-- Witness for `c10_failure_atomicity`: an order rejected by the
gateway with a balance error leaves the default state unchanged. -/
theorem c10_failure_atomicity_witness :
    (place_trade gwOrderBalanceFail defaultState 100 ("BTC/USDT") ("buy") 4
        (some 50) none none 5 ("isolated") false).1 = defaultState :=
  c10_failure_atomicity gwOrderBalanceFail defaultState 100 ("BTC/USDT")
    ("buy") 4 (some 50) none none 5 ("isolated") false
    (fun _ ht => nomatch ht) rfl

/-- A `create_order` error makes `submitOrder` fail with the
substring-classified message of the outer exception handler. -/
theorem submitOrder_create_error (gw : Gateway) (s1 : TraderState) (now : ℚ)
    (symbol fsym side : String) (amount : ℚ)
    (price stop_loss take_profit : Option ℚ) (leverage : ℤ)
    (margin_mode : String) (post_only : Bool) (mkt : MarketInfo) (pfc : ℚ)
    (trc : List GwCall) (e : String) (hpz : ¬ pfc = 0)
    (hco : ∀ q, gw.create_order_res fsym
        (if price = none then ("market") else ("limit")) side q price =
      Except.error e) :
    (submitOrder gw s1 now symbol fsym side amount price stop_loss take_profit
        leverage margin_mode post_only mkt pfc trc).2.1 =
      { success := false, message := classify_error s1.exchange_id symbol e } := by
  unfold submitOrder
  rw [if_neg hpz]
  dsimp only
  rw [hco]

/-- Claim C7, counterexample: a gateway failure in the execution phase
whose error text contains the substring `balance` — a ticker-fetch
failure — is not classified as insufficient balance: the inner handler
reports a could-not-fetch-price message instead. -/
theorem c7_counterexample :
    strContains (strLower ("no balance data")) ("balance") = true ∧
    (place_trade gwTickerBalanceFail defaultState 100 ("BTC/USDT") ("buy") 4
        none none none 5 ("isolated") false).2.1 =
      { success := false,
        message := TradeMsg.couldNotFetchPrice ("BTCUSDT") ("no balance data") } ∧
    TradeMsg.couldNotFetchPrice ("BTCUSDT") ("no balance data") ≠
      TradeMsg.insufficientBalance ("no balance data") :=
  ⟨by decide, rfl, by decide⟩

/-- Claim C7 (amended): in the execution phase of `place_trade` every
gateway failure yields a `success := false` result value (the embedding
is a total function: nothing is raised), but only errors reaching the
outer exception handler — order submission, and anything uncaught — are
classified by case-insensitive substring (balance, then permission,
then symbol, else the raw message passed through, as `classify_error`);
a market-lookup failure reports symbol-not-supported and a price-fetch
failure reports could-not-fetch-price, each regardless of its error
text, while leverage/margin-mode failures do not fail the call at all
(their results are ignored). -/
theorem c7_error_classification (gw : Gateway) (s : TraderState) (now : ℚ)
    (symbol side : String) (amount : ℚ)
    (price stop_loss take_profit : Option ℚ) (leverage : ℤ)
    (margin_mode : String) (post_only : Bool) (fsym : String)
    (hall : (can_trade s now).2.allowed = true)
    (hsz : ¬ (can_trade s now).1.max_position_size < amount)
    (hml : gw.markets_loaded = true)
    (hfs : fsym = format_symbol_for_exchange (can_trade s now).1.exchange_id
        gw.markets symbol) :
    (∀ e, gw.market_res fsym = Except.error e →
      (place_trade gw s now symbol side amount price stop_loss take_profit
          leverage margin_mode post_only).2.1 =
        { success := false, message := TradeMsg.symbolNotFound fsym e }) ∧
    (∀ mkt e, gw.market_res fsym = Except.ok mkt → truthyQ price = false →
      gw.fetch_ticker_res fsym = Except.error e →
      (place_trade gw s now symbol side amount price stop_loss take_profit
          leverage margin_mode post_only).2.1 =
        { success := false, message := TradeMsg.couldNotFetchPrice fsym e }) ∧
    (∀ mkt e, gw.market_res fsym = Except.ok mkt → truthyQ price = true →
      ¬ price.getD 0 = 0 →
      (∀ q, gw.create_order_res fsym ("limit") side q price = Except.error e) →
      (place_trade gw s now symbol side amount price stop_loss take_profit
          leverage margin_mode post_only).2.1 =
        { success := false,
          message :=
            classify_error (can_trade s now).1.exchange_id symbol e }) ∧
    (∀ mkt last e, gw.market_res fsym = Except.ok mkt → price = none →
      gw.fetch_ticker_res fsym = Except.ok last → ¬ last = 0 →
      (∀ q, gw.create_order_res fsym ("market") side q none = Except.error e) →
      (place_trade gw s now symbol side amount price stop_loss take_profit
          leverage margin_mode post_only).2.1 =
        { success := false,
          message :=
            classify_error (can_trade s now).1.exchange_id symbol e }) := by
  rw [place_trade_of_pass gw s now symbol side amount price stop_loss
    take_profit leverage margin_mode post_only hall hsz]
  refine ⟨?_, ?_, ?_, ?_⟩
  · intro e hmr
    unfold place_trade_exec
    dsimp only
    rw [← hfs]
    simp [hml, hmr]
  · intro mkt e hmr htr hti
    unfold place_trade_exec
    dsimp only
    rw [← hfs]
    simp [hml, hmr, htr, hti]
  · intro mkt e hmr htr hpz hco
    have hpn : ¬ price = none := by
      intro h
      rw [h] at htr
      exact absurd htr (by decide)
    have hco2 : ∀ q, gw.create_order_res fsym
        (if price = none then ("market") else ("limit")) side q price =
        Except.error e := by
      intro q
      rw [if_neg hpn]
      exact hco q
    have hsub := submitOrder_create_error gw ((can_trade s now).1) now symbol
      fsym side amount price stop_loss take_profit leverage margin_mode
      post_only mkt (price.getD 0)
      ([GwCall.marketLookup fsym, GwCall.setLeverage, GwCall.setMarginMode])
      e hpz hco2
    unfold place_trade_exec
    dsimp only
    rw [← hfs]
    simp only [hml, hmr, htr, if_true, ite_true, List.nil_append,
      List.cons_append, List.append_nil]
    simpa using hsub
  · intro mkt last e hmr hpn hti hlz hco
    have htr : truthyQ price = false := by
      rw [hpn]
      rfl
    have hco2 : ∀ q, gw.create_order_res fsym
        (if price = none then ("market") else ("limit")) side q price =
        Except.error e := by
      intro q
      rw [if_pos hpn, hpn]
      exact hco q
    have hsub := submitOrder_create_error gw ((can_trade s now).1) now symbol
      fsym side amount price stop_loss take_profit leverage margin_mode
      post_only mkt last
      ([GwCall.marketLookup fsym, GwCall.setLeverage, GwCall.setMarginMode,
        GwCall.fetchTicker fsym]) e hlz hco2
    unfold place_trade_exec
    dsimp only
    rw [← hfs]
    simp only [hml, hmr, htr, Bool.false_eq_true, if_false, ite_true,
      ite_false, hti, List.nil_append, List.cons_append, List.append_nil]
    simpa using hsub

/-- Witness for `c7_error_classification`: an order-submission error
containing `BALANCE` is classified as insufficient balance. -/
theorem c7_error_classification_witness :
    ((place_trade gwOrderBalanceFail defaultState 100 ("BTC/USDT") ("buy") 4
        (some 50) none none 5 ("isolated") false).2.1 =
      { success := false,
        message :=
          classify_error (can_trade defaultState 100).1.exchange_id
            ("BTC/USDT") ("Insufficient BALANCE for order") }) ∧
    classify_error (can_trade defaultState 100).1.exchange_id ("BTC/USDT")
        ("Insufficient BALANCE for order") =
      TradeMsg.insufficientBalance ("Insufficient BALANCE for order") :=
  ⟨(c7_error_classification gwOrderBalanceFail defaultState 100 ("BTC/USDT")
      ("buy") 4 (some 50) none none 5 ("isolated") false ("BTCUSDT") rfl
      (by decide) rfl (by decide)).2.2.1 { min_amount := none }
      ("Insufficient BALANCE for order") rfl rfl (by norm_num)
      (fun _ => rfl),
   by decide⟩

/-- A record with a different order id is not selected by an id-filtered
check. -/
theorem pendingFilter_ne (i : String) (t : TradeRecord)
    (h : ¬ t.order_id = i) : pendingFilter (some i) t = false := by
  unfold pendingFilter
  simp [h]

/-- A record that is not pending is never selected. -/
theorem pendingFilter_resolved (oid : Option String) (t : TradeRecord)
    (h : ¬ t.status = ("pending")) : pendingFilter oid t = false := by
  unfold pendingFilter
  cases oid <;> simp [h]

/-- An unselected record passes through the check loop unchanged. -/
theorem checkStep_skip (fetch : String → String → Except String String)
    (oid : Option String) (t : TradeRecord)
    (h : pendingFilter oid t = false) :
    checkStep fetch oid t = (t, false, false) := by
  unfold checkStep
  rw [if_pos h]

/-- A selected pending record whose gateway status is closed/filled is
resolved to `filled` and flagged as a new fill. -/
theorem checkStep_fill (fetch : String → String → Except String String)
    (i : String) (t : TradeRecord) (st : String)
    (hid : t.order_id = i) (hpend : t.status = ("pending"))
    (hv1 : ¬ i = ("")) (hv2 : ¬ i = ("unknown"))
    (hfetch : fetch i t.symbol = Except.ok st)
    (hst : st = ("closed") ∨ st = ("filled")) :
    checkStep fetch (some i) t = ({ t with status := ("filled") }, true, false) := by
  have hpf : pendingFilter (some i) t = true := by
    unfold pendingFilter
    simp [hid, hpend]
  unfold checkStep
  rw [if_neg (by simp [hpf]), if_neg (by simp [hid, hv1, hv2]), hid, hfetch]
  rcases hst with h | h <;> subst h <;> rfl

/-- A selected pending record whose gateway status is
canceled/cancelled is resolved to `canceled` with no fill flag. -/
theorem checkStep_cancel (fetch : String → String → Except String String)
    (i : String) (t : TradeRecord) (st : String)
    (hid : t.order_id = i) (hpend : t.status = ("pending"))
    (hv1 : ¬ i = ("")) (hv2 : ¬ i = ("unknown"))
    (hfetch : fetch i t.symbol = Except.ok st)
    (hst : st = ("canceled") ∨ st = ("cancelled")) :
    checkStep fetch (some i) t =
      ({ t with status := ("canceled") }, false, true) := by
  have hpf : pendingFilter (some i) t = true := by
    unfold pendingFilter
    simp [hid, hpend]
  unfold checkStep
  rw [if_neg (by simp [hpf]), if_neg (by simp [hid, hv1, hv2]), hid, hfetch]
  rcases hst with h | h <;> subst h <;> rfl

/-- Mapping the first projection over step results that are all
identity passes gives back the list. -/
theorem map_fst_of_const (c : TradeRecord → TradeRecord × Bool × Bool)
    (l : List TradeRecord) (h : ∀ r ∈ l, c r = (r, false, false)) :
    (l.map c).map (fun r => r.1) = l := by
  induction l with
  | nil => rfl
  | cons a l ih =>
      simp only [List.map_cons]
      rw [h a (List.mem_cons_self a l),
        ih (fun r hr => h r (List.mem_cons_of_mem a hr))]

/-- Filtering a flag out of step results that are all identity passes
gives the empty list, for any flag projection that is false on them. -/
theorem filter_false_of_const (c : TradeRecord → TradeRecord × Bool × Bool)
    (p : TradeRecord × Bool × Bool → Bool) (l : List TradeRecord)
    (h : ∀ r ∈ l, c r = (r, false, false))
    (hp : ∀ r, p (r, false, false) = false) :
    (l.map c).filter p = [] := by
  induction l with
  | nil => rfl
  | cons a l ih =>
      simp only [List.map_cons, List.filter_cons]
      rw [h a (List.mem_cons_self a l), hp a]
      simp only [Bool.false_eq_true, if_false]
      exact ih (fun r hr => h r (List.mem_cons_of_mem a hr))

/-- Effect of `check_limit_order_status` on a history in which exactly
one record is selected: that record is replaced by its step result, the
counter is bumped exactly when the step reports a new fill, and
`last_trade_time` moves to the check time exactly in that case. -/
theorem check_process (fetch : String → String → Except String String)
    (s : TraderState) (now : ℚ) (oid : Option String)
    (pre post : List TradeRecord) (t : TradeRecord)
    (hhist : s.trades_history = pre ++ t :: post)
    (hf : ∀ r ∈ pre, checkStep fetch oid r = (r, false, false))
    (hg : ∀ r ∈ post, checkStep fetch oid r = (r, false, false)) :
    (check_limit_order_status fetch s now oid).1.trades_history =
      pre ++ ((checkStep fetch oid t).1 :: post) ∧
    (check_limit_order_status fetch s now oid).1.daily_trade_count =
      s.daily_trade_count + (if (checkStep fetch oid t).2.1 then 1 else 0) ∧
    (check_limit_order_status fetch s now oid).1.last_trade_time =
      (if (checkStep fetch oid t).2.1 then some now
       else s.last_trade_time) := by
  unfold check_limit_order_status
  dsimp only
  rw [hhist]
  simp only [List.map_append, List.map_cons, List.filter_append,
    List.filter_cons]
  rw [filter_false_of_const (checkStep fetch oid) _ pre hf (fun _ => rfl),
    filter_false_of_const (checkStep fetch oid) _ post hg (fun _ => rfl)]
  refine ⟨?_, ?_, ?_⟩
  · rw [map_fst_of_const (checkStep fetch oid) pre hf,
      map_fst_of_const (checkStep fetch oid) post hg]
  · cases hb : (checkStep fetch oid t).2.1 <;> simp [hb]
  · cases hb : (checkStep fetch oid t).2.1 <;> simp [hb]

/-- A check on a history with no selectable record changes nothing. -/
theorem check_noop (fetch : String → String → Except String String)
    (s : TraderState) (now : ℚ) (oid : Option String)
    (h : ∀ r ∈ s.trades_history, checkStep fetch oid r = (r, false, false)) :
    (check_limit_order_status fetch s now oid).1 = s := by
  unfold check_limit_order_status
  dsimp only
  rw [map_fst_of_const (checkStep fetch oid) s.trades_history h,
    filter_false_of_const (checkStep fetch oid) _ s.trades_history h
      (fun _ => rfl)]
  simp

/-- Lemma: `recordOrder` for a limit order: no counter bump, no last-trade-time
update, and the appended record is pending. -/
theorem recordOrder_limit_fields (s1 : TraderState) (now : ℚ)
    (fsym side : String) (amount : ℚ)
    (price stop_loss take_profit : Option ℚ) (leverage : ℤ)
    (margin_mode : String) (post_only : Bool) (pfc q : ℚ)
    (order : OrderHandle) :
    (recordOrder s1 now fsym side amount price stop_loss take_profit leverage
        margin_mode post_only ("limit") pfc q order).daily_trade_count =
      s1.daily_trade_count ∧
    (recordOrder s1 now fsym side amount price stop_loss take_profit leverage
        margin_mode post_only ("limit") pfc q order).last_trade_time =
      s1.last_trade_time ∧
    ∃ r, (recordOrder s1 now fsym side amount price stop_loss take_profit
        leverage margin_mode post_only ("limit") pfc q order).trades_history =
          s1.trades_history ++ [r] ∧
      r.status = ("pending") ∧ r.order_type = ("limit") := by
  have hlm : (("limit") == ("market")) = false := rfl
  unfold recordOrder
  dsimp only
  simp only [hlm, Bool.false_eq_true, if_false]
  split
  · exact ⟨rfl, rfl, _, rfl, rfl, rfl⟩
  · exact ⟨rfl, rfl, _, rfl, rfl, rfl⟩

/-- Claim C3: limit-order counting.  (1) A successful `place_trade`
that supplies a limit price appends a pending record and changes
neither `daily_trade_count` nor `last_trade_time` (no day rollover
pending at the call); (2) a status check mapping gateway
closed/filled to local filled increments the counter by exactly 1 and
sets `last_trade_time` to the check time; (3) a status check mapping
canceled/cancelled to local canceled changes neither; (4) re-checking a
history with no pending record changes nothing. -/
theorem c3_limit_order_counting :
    (∀ (gw : Gateway) (s : TraderState) (now : ℚ) (symbol side : String)
        (amount p : ℚ) (stop_loss take_profit : Option ℚ) (leverage : ℤ)
        (margin_mode : String) (post_only : Bool),
      (∀ t0, s.last_trade_time = some t0 → dayOf now ≤ dayOf t0) →
      (place_trade gw s now symbol side amount (some p) stop_loss take_profit
          leverage margin_mode post_only).2.1.success = true →
      (place_trade gw s now symbol side amount (some p) stop_loss take_profit
          leverage margin_mode post_only).1.daily_trade_count =
        s.daily_trade_count ∧
      (place_trade gw s now symbol side amount (some p) stop_loss take_profit
          leverage margin_mode post_only).1.last_trade_time =
        s.last_trade_time ∧
      ∃ r, (place_trade gw s now symbol side amount (some p) stop_loss
          take_profit leverage margin_mode post_only).1.trades_history =
            s.trades_history ++ [r] ∧
        r.status = ("pending") ∧ r.order_type = ("limit")) ∧
    (∀ (fetch : String → String → Except String String) (s : TraderState)
        (now : ℚ) (i st : String) (pre post : List TradeRecord)
        (t : TradeRecord),
      s.trades_history = pre ++ t :: post →
      t.order_id = i → t.status = ("pending") →
      ¬ i = ("") → ¬ i = ("unknown") →
      (∀ r ∈ pre, ¬ r.order_id = i) → (∀ r ∈ post, ¬ r.order_id = i) →
      fetch i t.symbol = Except.ok st →
      (st = ("closed") ∨ st = ("filled")) →
      (check_limit_order_status fetch s now (some i)).1.daily_trade_count =
        s.daily_trade_count + 1 ∧
      (check_limit_order_status fetch s now (some i)).1.last_trade_time =
        some now ∧
      (check_limit_order_status fetch s now (some i)).1.trades_history =
        pre ++ ({ t with status := ("filled") } :: post)) ∧
    (∀ (fetch : String → String → Except String String) (s : TraderState)
        (now : ℚ) (i st : String) (pre post : List TradeRecord)
        (t : TradeRecord),
      s.trades_history = pre ++ t :: post →
      t.order_id = i → t.status = ("pending") →
      ¬ i = ("") → ¬ i = ("unknown") →
      (∀ r ∈ pre, ¬ r.order_id = i) → (∀ r ∈ post, ¬ r.order_id = i) →
      fetch i t.symbol = Except.ok st →
      (st = ("canceled") ∨ st = ("cancelled")) →
      (check_limit_order_status fetch s now (some i)).1.daily_trade_count =
        s.daily_trade_count ∧
      (check_limit_order_status fetch s now (some i)).1.last_trade_time =
        s.last_trade_time ∧
      (check_limit_order_status fetch s now (some i)).1.trades_history =
        pre ++ ({ t with status := ("canceled") } :: post)) ∧
    (∀ (fetch : String → String → Except String String) (s : TraderState)
        (now : ℚ) (oid : Option String),
      (∀ r ∈ s.trades_history, ¬ r.status = ("pending")) →
      (check_limit_order_status fetch s now oid).1 = s) := by
  refine ⟨?_, ?_, ?_, ?_⟩
  · intro gw s now symbol side amount p stop_loss take_profit leverage
      margin_mode post_only hday hsucc
    have hs1 : (can_trade s now).1 = s := by
      rw [can_trade_fst, resetIfNewDay_noReset s now hday]
    revert hsucc
    unfold place_trade
    dsimp only
    split
    · intro hsucc
      exact absurd hsucc (by simp)
    · split
      · intro hsucc
        exact absurd hsucc (by simp)
      · intro hsucc
        rcases place_trade_exec_cases gw ((can_trade s now).1) now symbol side
            amount (some p) stop_loss take_profit leverage margin_mode
            post_only with ⟨h1, _⟩ | ⟨_, fsym, pfc, q, order, h2⟩
        · rw [h1] at hsucc
          exact absurd hsucc (by simp)
        · rw [h2]
          have hlim : (if (some p : Option ℚ) = none then ("market")
              else ("limit")) = ("limit") := rfl
          rw [hlim]
          rw [hs1]
          exact recordOrder_limit_fields s now fsym side amount (some p)
            stop_loss take_profit leverage margin_mode post_only pfc q order
  · intro fetch s now i st pre post t hhist hid hpend hv1 hv2 hpre hpost
      hfetch hst
    have hstep := checkStep_fill fetch i t st hid hpend hv1 hv2 hfetch hst
    have hf : ∀ r ∈ pre, checkStep fetch (some i) r = (r, false, false) :=
      fun r hr => checkStep_skip fetch (some i) r
        (pendingFilter_ne i r (hpre r hr))
    have hg : ∀ r ∈ post, checkStep fetch (some i) r = (r, false, false) :=
      fun r hr => checkStep_skip fetch (some i) r
        (pendingFilter_ne i r (hpost r hr))
    have hcp := check_process fetch s now (some i) pre post t hhist hf hg
    rw [hstep] at hcp
    simp only [if_true, ite_true] at hcp
    exact ⟨hcp.2.1, hcp.2.2, hcp.1⟩
  · intro fetch s now i st pre post t hhist hid hpend hv1 hv2 hpre hpost
      hfetch hst
    have hstep := checkStep_cancel fetch i t st hid hpend hv1 hv2 hfetch hst
    have hf : ∀ r ∈ pre, checkStep fetch (some i) r = (r, false, false) :=
      fun r hr => checkStep_skip fetch (some i) r
        (pendingFilter_ne i r (hpre r hr))
    have hg : ∀ r ∈ post, checkStep fetch (some i) r = (r, false, false) :=
      fun r hr => checkStep_skip fetch (some i) r
        (pendingFilter_ne i r (hpost r hr))
    have hcp := check_process fetch s now (some i) pre post t hhist hf hg
    rw [hstep] at hcp
    simp only [Bool.false_eq_true, if_false, ite_false, add_zero] at hcp
    exact ⟨hcp.2.1, hcp.2.2, hcp.1⟩
  · intro fetch s now oid hres
    exact check_noop fetch s now oid
      (fun r hr => checkStep_skip fetch oid r
        (pendingFilter_resolved oid r (hres r hr)))

/-- Witness for `c3_limit_order_counting`, exercising all four parts at
concrete inputs. -/
theorem c3_limit_order_counting_witness :
    ((place_trade gwOk defaultState 100 ("BTC/USDT") ("buy") 4 (some 50) none
        none 5 ("isolated") false).1.daily_trade_count =
          defaultState.daily_trade_count ∧
     (place_trade gwOk defaultState 100 ("BTC/USDT") ("buy") 4 (some 50) none
        none 5 ("isolated") false).1.last_trade_time =
          defaultState.last_trade_time ∧
     ∃ r, (place_trade gwOk defaultState 100 ("BTC/USDT") ("buy") 4 (some 50)
        none none 5 ("isolated") false).1.trades_history =
          defaultState.trades_history ++ [r] ∧
       r.status = ("pending") ∧ r.order_type = ("limit")) ∧
    ((check_limit_order_status fetchClosed pendingHistState 200
        (some ("o1"))).1.daily_trade_count =
          pendingHistState.daily_trade_count + 1 ∧
     (check_limit_order_status fetchClosed pendingHistState 200
        (some ("o1"))).1.last_trade_time = some 200 ∧
     (check_limit_order_status fetchClosed pendingHistState 200
        (some ("o1"))).1.trades_history =
       [] ++ ({ pendingRec with status := ("filled") } :: [])) ∧
    ((check_limit_order_status fetchCanceled pendingHistState 200
        (some ("o1"))).1.daily_trade_count =
          pendingHistState.daily_trade_count ∧
     (check_limit_order_status fetchCanceled pendingHistState 200
        (some ("o1"))).1.last_trade_time =
          pendingHistState.last_trade_time ∧
     (check_limit_order_status fetchCanceled pendingHistState 200
        (some ("o1"))).1.trades_history =
       [] ++ ({ pendingRec with status := ("canceled") } :: [])) ∧
    ((check_limit_order_status fetchClosed filledHistState 200
        (some ("o1"))).1 = filledHistState) := by
  refine ⟨?_, ?_, ?_, ?_⟩
  · exact c3_limit_order_counting.1 gwOk defaultState 100 ("BTC/USDT") ("buy")
      4 50 none none 5 ("isolated") false (fun _ ht => nomatch ht) rfl
  · exact c3_limit_order_counting.2.1 fetchClosed pendingHistState 200 ("o1")
      ("closed") [] [] pendingRec rfl rfl rfl (by decide) (by decide)
      (fun r hr => nomatch hr) (fun r hr => nomatch hr) rfl (Or.inl rfl)
  · exact c3_limit_order_counting.2.2.1 fetchCanceled pendingHistState 200
      ("o1") ("canceled") [] [] pendingRec rfl rfl rfl (by decide) (by decide)
      (fun r hr => nomatch hr) (fun r hr => nomatch hr) rfl (Or.inl rfl)
  · refine c3_limit_order_counting.2.2.2 fetchClosed filledHistState 200
      (some ("o1")) ?_
    intro r hr
    have hr2 : r = filledRecDay1 := by
      simpa [filledHistState, defaultState] using hr
    subst hr2
    decide

end Trader
